import Mathlib

/-
Shallow embedding of the background-removal processing core of the
bg-removal-api repository (src/app/core.py), together with theorems
settling the specification claims about it.

Conventions of the embedding:
  - bytes are modelled as lists of naturals;
  - the external image libraries (PIL decode, rembg matting, PIL RGBA
    conversion, PNG encoding) are opaque capabilities, passed in as a
    record of functions; a capability returning none models the library
    call raising an exception;
  - the durable cache tier (files under settings.TEMP_DIR) is a finite
    map from path to file state; a path can be absent, hold data, or be
    unreadable (open/read raises); a separate list records paths whose
    write raises;
  - the functools.lru_cache memo sitting on get_cached_image is a
    recency-ordered association list with a capacity (settings.CACHE_SIZE);
  - the asyncio.Semaphore permit counter (settings.MAX_WORKERS) is a
    natural number in the state; the async-with block of
    remove_background decrements it on entry and increments it on every
    exit path, which is exactly the Python semantics when a permit is
    available;
  - uuid.uuid4() is modelled by a list of fresh identifiers carried in
    the state, consumed when the code calls uuid4;
  - Python exceptions are modelled with Except; the error type mirrors
    the raw exception classes the code can re-raise.
Each call of remove_background additionally returns a trace of
instrumentation events (gate acquisition/release, cache lookup, cache
hit, matting invocation, cache write) used to state the temporal claims.
-/

namespace BgCore

abbrev Bytes := List Nat

/-- Errors a core call can surface. The first four mirror the raw
exceptions the Python libraries raise (PIL decode failure, rembg
failure, PNG encode failure, OSError from the durable tier). The
constructor wrapped models the tagged ProcessingError wrapper that the
spec describes; the code of core.py never constructs such a wrapper, it
re-raises the raw exception after logging. -/
inductive PyErr
  | decodeErr
  | matteErr
  | encodeErr
  | ioErr
  | wrapped (cause : PyErr)
deriving DecidableEq, Repr

/-- True exactly on the spec-modelled tagged wrapper. -/
def PyErr.isWrapped : PyErr → Bool
  | .wrapped _ => true
  | _ => false

/-- An in-memory image as handed around between the capabilities:
a colour mode (PIL mode string such as RGB or RGBA) and opaque pixel
content. -/
structure Image where
  mode : String
  px : List Nat
deriving DecidableEq, Repr

/-- The opaque external capabilities used by remove_background:
PIL.Image.open, rembg.remove (with the fixed alpha-matting thresholds),
PIL convert to RGBA, and PNG encoding via Image.save. A none result
models the library raising. -/
structure Caps where
  decode : Bytes → Option Image
  matte : Image → Option Image
  convertRGBA : Image → Image
  encodePNG : Image → Option Bytes

/-- State of one path of the durable tier: no file, a readable file
with data, or a file whose open/read raises OSError. -/
inductive FsEntry
  | absent
  | file (data : Bytes)
  | unreadable
deriving DecidableEq, Repr

/-- The durable cache tier: the files under settings.TEMP_DIR, plus the
set of paths on which a write raises OSError. -/
structure Fs where
  entries : List (String × FsEntry)
  writeFails : List String
deriving DecidableEq, Repr

def Fs.read (fs : Fs) (p : String) : FsEntry :=
  ((fs.entries.find? (fun e => e.1 == p)).map (fun e => e.2)).getD .absent

def Fs.write (fs : Fs) (p : String) (d : Bytes) : Fs :=
  { fs with entries := (p, FsEntry.file d) :: fs.entries.eraseP (fun e => e.1 == p) }

/-- The functools.lru_cache memo on get_cached_image: a bounded,
recency-ordered association list from argument (the image hash) to the
memoized return value, most recently used first. Note that the
memoized value is the full Optional return of the function, so a miss
(None) is memoized like any other result. -/
structure Memo where
  cap : Nat
  entries : List (String × Option Bytes)
deriving DecidableEq, Repr

def Memo.lookup (m : Memo) (k : String) : Option (Option Bytes) :=
  (m.entries.find? (fun e => e.1 == k)).map (fun e => e.2)

/-- Refresh the recency of an existing key (lru_cache moves a hit key
to most-recently-used). -/
def Memo.touch (m : Memo) (k : String) : Memo :=
  match m.entries.find? (fun e => e.1 == k) with
  | none => m
  | some e => { m with entries := e :: m.entries.eraseP (fun x => x.1 == k) }

/-- Record a freshly computed result (lru_cache stores it as most
recent and drops the least-recently-used entry beyond capacity). -/
def Memo.store (m : Memo) (k : String) (v : Option Bytes) : Memo :=
  { m with entries := ((k, v) :: m.entries).take m.cap }

/-- The process-wide mutable state of the core: the lru_cache memo, the
durable tier, the KEEP_TEMP_FILES flag, the semaphore permit counter,
and the stream of values uuid.uuid4 will produce. -/
structure CoreState where
  memo : Memo
  fs : Fs
  keepTempFiles : Bool
  gate : Nat
  uuids : List String
deriving DecidableEq, Repr

/-- os.path.join(settings.TEMP_DIR, image_hash + .png) with the default
TEMP_DIR. -/
def cachePath (h : String) : String := "tmp/" ++ h ++ ".png"

/-- The body of get_cached_image before memoization (core.py lines
18-23): if the cache file exists, open and read it (a raise
propagates); otherwise return None. -/
def rawGet (fs : Fs) (k : String) : Except PyErr (Option Bytes) :=
  match fs.read (cachePath k) with
  | .absent => .ok none
  | .file d => .ok (some d)
  | .unreadable => .error .ioErr

/-- get_cached_image (core.py lines 17-23), including the
lru_cache(maxsize=settings.CACHE_SIZE) decorator on line 17: a
memo hit returns the memoized value (even a memoized None) without
touching the durable tier; a memo miss runs the body and memoizes its
return value; a raise from the body is not memoized. -/
def get_cached_image (st : CoreState) (k : String) :
    Except PyErr (Option Bytes) × CoreState :=
  match st.memo.lookup k with
  | some v => (.ok v, { st with memo := st.memo.touch k })
  | none =>
    match rawGet st.fs k with
    | .ok v => (.ok v, { st with memo := st.memo.store k v })
    | .error e => (.error e, st)

/-- save_to_cache (core.py lines 25-29): write the durable file only
when settings.KEEP_TEMP_FILES is set; a write raise propagates. The
lru_cache memo is never updated here. -/
def save_to_cache (st : CoreState) (k : String) (d : Bytes) :
    Except PyErr Unit × CoreState :=
  if st.keepTempFiles then
    if st.fs.writeFails.contains (cachePath k) then (.error .ioErr, st)
    else ((.ok ()), { st with fs := st.fs.write (cachePath k) d })
  else ((.ok ()), st)

/-- Python truthiness of the image_hash argument (core.py line 38,
if not image_hash): None and the empty string are falsy. -/
def falsyId : Option String → Bool
  | none => true
  | some s => s == ""

/-- Identifier resolution of core.py lines 38-39: a truthy
caller-supplied hash is used verbatim; otherwise the fresh uuid4 value
is used. No identifier is ever derived from the image bytes. -/
def resolveId (h : Option String) (fresh : String) : String :=
  if falsyId h then fresh else h.getD ""

/-- Instrumentation events of one remove_background call. -/
inductive Ev
  | acquire
  | release
  | cacheGet (k : String)
  | hit
  | matteCall
  | cachePut (k : String)
deriving DecidableEq, Repr

def isAcq : Ev → Bool
  | .acquire => true
  | _ => false

def isRel : Ev → Bool
  | .release => true
  | _ => false

/-- Python truthiness of the cached value (core.py line 42, if cached):
the hit branch is taken only for a non-None, non-empty byte string. -/
def hitData : Option Bytes → Option Bytes
  | none => none
  | some c => if c = [] then none else some c

/-- The cache-miss branch of remove_background (core.py lines 46-75):
decode the input (PIL, line 47), matte it with the fixed thresholds
(rembg, lines 50-55), normalize the mode to RGBA (lines 58-59), encode
to PNG (lines 62-69) and populate the cache (line 71). Any raise skips
the rest and propagates. -/
def missPath (caps : Caps) (st1 : CoreState) (k : String) (image_data : Bytes) :
    Except PyErr Bytes × CoreState × List Ev :=
  match caps.decode image_data with
  | none => (.error .decodeErr, st1, [Ev.cacheGet k])
  | some img =>
    match caps.matte img with
    | none => (.error .matteErr, st1, [Ev.cacheGet k, Ev.matteCall])
    | some out =>
      match caps.encodePNG (if out.mode = "RGBA" then out else caps.convertRGBA out) with
      | none => (.error .encodeErr, st1, [Ev.cacheGet k, Ev.matteCall])
      | some data =>
        match save_to_cache st1 k data with
        | (.error e, st2) => (.error e, st2, [Ev.cacheGet k, Ev.matteCall])
        | (.ok _, st2) =>
          (.ok data, st2, [Ev.cacheGet k, Ev.matteCall, Ev.cachePut k])

/-- The hit test of core.py lines 42-44 (if cached, with Python
truthiness) followed, on a miss, by the compute path. -/
def afterGet (caps : Caps) (st1 : CoreState) (k : String) (copt : Option Bytes)
    (image_data : Bytes) : Except PyErr Bytes × CoreState × List Ev :=
  match hitData copt with
  | some c => (.ok c, st1, [Ev.cacheGet k, Ev.hit])
  | none => missPath caps st1 k image_data

/-- The value uuid.uuid4() would produce next in this state. -/
def nextFresh (st : CoreState) : String := st.uuids.headD "uuid-0"

/-- State after the identifier resolution of core.py line 38-39: the
uuid stream advances exactly when uuid4 is called, that is when the
supplied hash is falsy. -/
def preState (st : CoreState) (image_hash : Option String) : CoreState :=
  if falsyId image_hash then { st with uuids := st.uuids.tail } else st

/-- The body of remove_background inside the async-with block and the
try block (core.py lines 37-77): resolve the identifier, consult the
cache, and on a miss decode, matte, normalize to RGBA, encode to PNG
and populate the cache. The except clause on lines 78-80 logs and
re-raises the same exception, so errors pass through unchanged. -/
def rbBody (caps : Caps) (st : CoreState) (image_data : Bytes)
    (image_hash : Option String) :
    Except PyErr Bytes × CoreState × List Ev :=
  let k := resolveId image_hash (nextFresh st)
  match get_cached_image (preState st image_hash) k with
  | (.error e, st1) => (.error e, st1, [Ev.cacheGet k])
  | (.ok copt, st1) => afterGet caps st1 k copt image_data

/-- remove_background (core.py lines 31-80): the async-with block on
the processing semaphore acquires a permit before anything else runs
(in particular before the cache lookup) and releases it on every exit
path, normal return or raise. -/
def remove_background (caps : Caps) (st : CoreState) (image_data : Bytes)
    (image_hash : Option String) :
    Except PyErr Bytes × CoreState × List Ev :=
  let stAcq := { st with gate := st.gate - 1 }
  match rbBody caps stAcq image_data image_hash with
  | (r, st1, evs) =>
    (r, { st1 with gate := st1.gate + 1 }, Ev.acquire :: evs ++ [Ev.release])

/-- A sequence of raw cache operations against a fixed identifier, used
to state in-process cache observability claims. -/
inductive CacheOp
  | get
  | put (d : Bytes)
deriving DecidableEq, Repr

/-- Run a list of cache operations for the identifier k, collecting the
result of every get. -/
def runOps (k : String) : CoreState → List CacheOp →
    List (Except PyErr (Option Bytes)) × CoreState
  | st, [] => ([], st)
  | st, CacheOp.get :: rest =>
    match get_cached_image st k with
    | (r, st1) =>
      match runOps k st1 rest with
      | (rs, st2) => (r :: rs, st2)
  | st, CacheOp.put d :: rest =>
    match save_to_cache st k d with
    | (_, st1) => runOps k st1 rest

/- Concurrency model of the admission gate (core.py line 15 and the
async-with block of remove_background): any number of cache-missing
tasks, each of which must hold a semaphore permit for the whole of its
matting call. A task is waiting for a permit, matting while holding
one, or finished having released it. -/

inductive Phase
  | waiting
  | matting
  | finished
deriving DecidableEq, Repr

/-- Global state of the gate system: the phase of every task and the
semaphore's available-permit count. -/
structure GateSt where
  tasks : List Phase
  avail : Nat
deriving DecidableEq, Repr

/-- Number of tasks currently inside the matting call. -/
def inflight (s : GateSt) : Nat :=
  s.tasks.countP (fun p => decide (p = Phase.matting))

/-- Initial state: M tasks about to request the gate, N =
settings.MAX_WORKERS permits available. -/
def initGate (M N : Nat) : GateSt :=
  { tasks := List.replicate M Phase.waiting, avail := N }

/-- Interleaving semantics: a waiting task may acquire a permit only
when one is available (asyncio.Semaphore acquire), and a matting task
may finish and release its permit (exit of the async-with block). -/
inductive GateStep : GateSt → GateSt → Prop
  | acquire (s : GateSt) (i : Nat)
      (hi : s.tasks.get? i = some Phase.waiting) (hp : 0 < s.avail) :
      GateStep s { tasks := s.tasks.set i Phase.matting, avail := s.avail - 1 }
  | release (s : GateSt) (i : Nat)
      (hi : s.tasks.get? i = some Phase.matting) :
      GateStep s { tasks := s.tasks.set i Phase.finished, avail := s.avail + 1 }

instance {α β : Type} [DecidableEq α] [DecidableEq β] : DecidableEq (Except α β) :=
  fun a b =>
    match a, b with
    | .ok x, .ok y =>
      if h : x = y then .isTrue (by rw [h]) else .isFalse (by simp [h])
    | .error x, .error y =>
      if h : x = y then .isTrue (by rw [h]) else .isFalse (by simp [h])
    | .ok _, .error _ => .isFalse (by simp)
    | .error _, .ok _ => .isFalse (by simp)

/- Concrete fixtures used by the counterexample theorems and witnesses.
demoCaps is one deterministic instantiation of the opaque capabilities:
decoding fails exactly on the empty byte string, matting and encoding
always succeed. -/

def demoCaps : Caps where
  decode := fun b => if b = [] then none else some { mode := "RGB", px := b }
  matte := fun img => some { mode := "RGBA", px := img.px }
  convertRGBA := fun img => { img with mode := "RGBA" }
  encodePNG := fun img => some (0 :: img.px)

/-- Fresh state: empty memo of capacity 1000 (the default CACHE_SIZE),
empty durable tier, KEEP_TEMP_FILES enabled, 4 permits (the default
MAX_WORKERS). -/
def st0 : CoreState where
  memo := { cap := 1000, entries := [] }
  fs := { entries := [], writeFails := [] }
  keepTempFiles := true
  gate := 4
  uuids := []

/-- State whose memo already holds cached output bytes for key k. -/
def stHit : CoreState :=
  { st0 with memo := { cap := 1000, entries := [("k", some [9])] } }

/-- State with durable retention disabled (KEEP_TEMP_FILES false). -/
def stNoKeep : CoreState := { st0 with keepTempFiles := false }

/-- State whose durable tier raises on reading the file of key k and on
writing the file of key w. -/
def stIOFail : CoreState :=
  { st0 with
      fs := { entries := [(cachePath "k", FsEntry.unreadable)],
              writeFails := [cachePath "w"] } }

/-- Fresh state whose next uuid4 value is u1. -/
def stU1 : CoreState := { st0 with uuids := ["u1"] }

/-- Fresh state whose next uuid4 value is u2. -/
def stU2 : CoreState := { st0 with uuids := ["u2"] }

/-- First call of the idempotence scenario: fresh state, identifier k,
decodable input. -/
def c2run1 : Except PyErr Bytes × CoreState × List Ev :=
  remove_background demoCaps st0 [5] (some "k")

/-- Second call of the idempotence scenario: same identifier, same
bytes, starting from the state the first call left behind. -/
def c2run2 : Except PyErr Bytes × CoreState × List Ev :=
  remove_background demoCaps c2run1.2.1 [5] (some "k")

/-- Setting one position of a list rebalances a countP tally: the count
of the new list plus the old element's contribution equals the count of
the old list plus the new element's contribution. -/
lemma countP_set_balance {α : Type} (p : α → Bool) :
    ∀ (l : List α) (i : Nat) (a b : α), l.get? i = some a →
      (l.set i b).countP p + (if p a then 1 else 0) =
        l.countP p + (if p b then 1 else 0) := by
  intro l
  induction l with
  | nil => intro i a b h; simp at h
  | cons c t ih =>
    intro i a b h
    cases i with
    | zero =>
      simp only [List.get?] at h
      injection h with h
      subst h
      simp [List.countP_cons]
      omega
    | succ j =>
      simp only [List.get?] at h
      have hb := ih j a b h
      simp [List.countP_cons]
      omega

/-- The gate invariant: in-flight matting calls plus available permits
equal the configured permit count. -/
def GInv (N : Nat) (s : GateSt) : Prop := inflight s + s.avail = N

lemma inflight_init (M N : Nat) : inflight (initGate M N) = 0 := by
  induction M with
  | zero => rfl
  | succ m ih =>
    simp only [inflight, initGate, List.replicate, List.countP_cons] at ih ⊢
    simp [ih]

lemma ginv_init (M N : Nat) : GInv N (initGate M N) := by
  unfold GInv
  rw [inflight_init]
  simp [initGate]

lemma ginv_step {N : Nat} {s t : GateSt} (h : GInv N s) (hst : GateStep s t) :
    GInv N t := by
  cases hst with
  | acquire i hi hp =>
    have hb := countP_set_balance (fun p => decide (p = Phase.matting))
      s.tasks i Phase.waiting Phase.matting hi
    simp only [GInv, inflight] at h ⊢
    simp at hb
    omega
  | release i hi =>
    have hb := countP_set_balance (fun p => decide (p = Phase.matting))
      s.tasks i Phase.matting Phase.finished hi
    simp only [GInv, inflight] at h ⊢
    simp at hb
    omega

lemma ginv_reachable {M N : Nat} {s : GateSt}
    (h : Relation.ReflTransGen GateStep (initGate M N) s) : GInv N s := by
  induction h with
  | refl => exact ginv_init M N
  | tail _ hstep ih => exact ginv_step ih hstep

/-- get_cached_image only updates the memo: gate, fs, retention flag
and uuid stream are untouched. -/
lemma get_frame (st : CoreState) (k : String) :
    (get_cached_image st k).2.gate = st.gate ∧
    (get_cached_image st k).2.fs = st.fs ∧
    (get_cached_image st k).2.keepTempFiles = st.keepTempFiles ∧
    (get_cached_image st k).2.uuids = st.uuids := by
  unfold get_cached_image
  cases hm : st.memo.lookup k with
  | some v => simp
  | none =>
    cases hr : rawGet st.fs k with
    | ok v => simp
    | error e => simp

/-- save_to_cache only updates the durable tier: memo, gate, retention
flag and uuid stream are untouched. -/
lemma save_frame (st : CoreState) (k : String) (d : Bytes) :
    (save_to_cache st k d).2.memo = st.memo ∧
    (save_to_cache st k d).2.gate = st.gate ∧
    (save_to_cache st k d).2.keepTempFiles = st.keepTempFiles ∧
    (save_to_cache st k d).2.uuids = st.uuids := by
  unfold save_to_cache
  by_cases hk : st.keepTempFiles <;>
    by_cases hw : cachePath k ∈ st.fs.writeFails <;>
      simp [hk, hw]

/-- A hit on the lru_cache memo returns the memoized value and only
refreshes its recency. -/
lemma get_when_memoized (st : CoreState) (k : String) (v : Option Bytes)
    (h : st.memo.lookup k = some v) :
    get_cached_image st k = (.ok v, { st with memo := st.memo.touch k }) := by
  unfold get_cached_image
  rw [h]

/-- A failing save_to_cache leaves the state unchanged. -/
lemma save_error (st : CoreState) (k : String) (d : Bytes) (e : PyErr)
    (h : (save_to_cache st k d).1 = .error e) :
    (save_to_cache st k d).2 = st := by
  unfold save_to_cache at h ⊢
  by_cases hk : st.keepTempFiles <;>
    by_cases hw : cachePath k ∈ st.fs.writeFails <;>
      simp [hk, hw] at h ⊢

/-- The compute path preserves the permit counter and the memo, and
emits no gate events. -/
lemma missPath_frame (caps : Caps) (st1 : CoreState) (k : String) (data : Bytes) :
    (missPath caps st1 k data).2.1.gate = st1.gate ∧
    (missPath caps st1 k data).2.1.memo = st1.memo ∧
    (missPath caps st1 k data).2.2.countP isAcq = 0 ∧
    (missPath caps st1 k data).2.2.countP isRel = 0 := by
  unfold missPath
  cases hd : caps.decode data with
  | none => simp [hd, isAcq, isRel]
  | some img =>
    cases hm : caps.matte img with
    | none => simp [hd, hm, isAcq, isRel]
    | some out =>
      cases he : caps.encodePNG (if out.mode = "RGBA" then out else caps.convertRGBA out) with
      | none => simp [hd, hm, he, isAcq, isRel]
      | some d2 =>
        rcases hs : save_to_cache st1 k d2 with ⟨rs, st2⟩
        have hf := save_frame st1 k d2
        rw [hs] at hf
        simp only at hf
        cases rs <;> simp [hd, hm, he, hs, isAcq, isRel] <;>
          exact ⟨hf.2.1, hf.1⟩

/-- The post-lookup stage preserves the permit counter and the memo,
and emits no gate events. -/
lemma afterGet_frame (caps : Caps) (st1 : CoreState) (k : String)
    (copt : Option Bytes) (data : Bytes) :
    (afterGet caps st1 k copt data).2.1.gate = st1.gate ∧
    (afterGet caps st1 k copt data).2.1.memo = st1.memo ∧
    (afterGet caps st1 k copt data).2.2.countP isAcq = 0 ∧
    (afterGet caps st1 k copt data).2.2.countP isRel = 0 := by
  unfold afterGet
  cases hh : hitData copt with
  | some c => simp [hh, isAcq, isRel]
  | none =>
    simp only [hh]
    exact missPath_frame caps st1 k data

lemma preState_gate (st : CoreState) (h : Option String) :
    (preState st h).gate = st.gate := by
  unfold preState
  split <;> rfl

/-- The whole body of remove_background preserves the permit counter
and emits no gate events: acquisition and release happen only in the
async-with wrapper. -/
lemma rbBody_frame (caps : Caps) (st : CoreState) (data : Bytes)
    (h : Option String) :
    (rbBody caps st data h).2.1.gate = st.gate ∧
    (rbBody caps st data h).2.2.countP isAcq = 0 ∧
    (rbBody caps st data h).2.2.countP isRel = 0 := by
  unfold rbBody
  rcases hg : get_cached_image (preState st h) (resolveId h (nextFresh st))
    with ⟨r, st1⟩
  have hfr := get_frame (preState st h) (resolveId h (nextFresh st))
  rw [hg] at hfr
  have hg1 : st1.gate = st.gate := by
    have := hfr.1
    simpa [preState_gate] using this
  cases r with
  | error e => simp [hg, hg1, isAcq, isRel]
  | ok copt =>
    have ha := afterGet_frame caps st1 (resolveId h (nextFresh st)) copt data
    simp only [hg]
    exact ⟨ha.1.trans hg1, ha.2.2.1, ha.2.2.2⟩

/-- The result value of remove_background is the result value of its
body: the async-with wrapper only manages the permit counter. -/
lemma remove_background_result (caps : Caps) (st : CoreState) (data : Bytes)
    (hash : Option String) :
    (remove_background caps st data hash).1 =
      (rbBody caps { st with gate := st.gate - 1 } data hash).1 := by
  unfold remove_background
  rcases hb : rbBody caps { st with gate := st.gate - 1 } data hash with ⟨r, st1, evs⟩
  simp [hb]

/-- A raise out of the un-memoized durable read is the OSError of an
unreadable file. -/
lemma rawGet_error (fs : Fs) (k : String) (e : PyErr)
    (h : rawGet fs k = .error e) : e = .ioErr := by
  unfold rawGet at h
  cases hfr : fs.read (cachePath k) <;> rw [hfr] at h <;> simp at h
  exact h.symm

/-- A raise out of get_cached_image is the OSError of an unreadable
file. -/
lemma get_error_io (st : CoreState) (k : String) (e : PyErr)
    (h : (get_cached_image st k).1 = .error e) : e = .ioErr := by
  unfold get_cached_image at h
  cases hm : st.memo.lookup k <;> rw [hm] at h
  · cases hr : rawGet st.fs k <;> rw [hr] at h
    · simp at h
      subst h
      exact rawGet_error st.fs k _ hr
    · simp at h
  · simp at h

/-- A raise out of save_to_cache is the OSError of a failing write. -/
lemma save_error_io (st : CoreState) (k : String) (d : Bytes) (e : PyErr)
    (h : (save_to_cache st k d).1 = .error e) : e = .ioErr := by
  unfold save_to_cache at h
  by_cases hk : st.keepTempFiles <;>
    by_cases hw : cachePath k ∈ st.fs.writeFails <;>
      simp [hk, hw] at h
  exact h.symm

/-- Reading back a path just written returns the written bytes. -/
lemma fs_read_write_self (fs : Fs) (p : String) (d : Bytes) :
    (fs.write p d).read p = .file d := by
  simp [Fs.write, Fs.read]

/-- A freshly stored memo entry is found, provided the lru capacity is
at least one. -/
lemma lookup_store (m : Memo) (k : String) (v : Option Bytes)
    (h : 1 ≤ m.cap) : (m.store k v).lookup k = some v := by
  obtain ⟨c, es⟩ := m
  simp only at h
  cases c with
  | zero => omega
  | succ n => simp [Memo.store, Memo.lookup, List.find?]

/-- Refreshing the recency of a key does not change its memoized
value. -/
lemma lookup_touch (m : Memo) (k : String) (v : Option Bytes)
    (h : m.lookup k = some v) : (m.touch k).lookup k = some v := by
  unfold Memo.lookup at h
  rcases Option.map_eq_some'.mp h with ⟨a, ha, hav⟩
  have hpa := List.find?_some ha
  simp only at hpa
  unfold Memo.touch Memo.lookup
  rw [ha]
  simp [List.find?, hpa, hav]

/-- The body of remove_background on a memo hit holding non-empty
bytes: the cached bytes come back, the memo recency is refreshed, and
the trace shows the lookup and the hit but no matting call. -/
lemma rbBody_hit (caps : Caps) (st : CoreState) (data : Bytes) (k : String)
    (c : Bytes) (hk : falsyId (some k) = false)
    (hmem : st.memo.lookup k = some (some c)) (hc : c ≠ []) :
    rbBody caps st data (some k) =
      (.ok c, { st with memo := st.memo.touch k }, [Ev.cacheGet k, Ev.hit]) := by
  have hpre : preState st (some k) = st := by simp [preState, hk]
  have hres : resolveId (some k) (nextFresh st) = k := by simp [resolveId, hk]
  unfold rbBody
  simp only [hpre, hres, get_when_memoized st k (some c) hmem]
  simp [afterGet, hitData, hc]

/-- Any raise on the miss path leaves the state exactly as it was after
the cache lookup, and the error is a raw library error, never the
spec's tagged wrapper. -/
lemma missPath_error (caps : Caps) (st1 : CoreState) (k : String)
    (data : Bytes) (e : PyErr)
    (h : (missPath caps st1 k data).1 = .error e) :
    (missPath caps st1 k data).2.1 = st1 ∧ e.isWrapped = false := by
  unfold missPath at h ⊢
  cases hd : caps.decode data with
  | none =>
    simp [hd] at h ⊢
    cases h
    rfl
  | some img =>
    cases hm : caps.matte img with
    | none =>
      simp [hd, hm] at h ⊢
      cases h
      rfl
    | some out =>
      cases he : caps.encodePNG (if out.mode = "RGBA" then out else caps.convertRGBA out) with
      | none =>
        simp [hd, hm, he] at h ⊢
        cases h
        rfl
      | some d2 =>
        rcases hs : save_to_cache st1 k d2 with ⟨rs, st2⟩
        simp only [hd, hm, he, hs] at h ⊢
        cases rs with
        | error e2 =>
          simp at h ⊢
          have hsave1 : (save_to_cache st1 k d2).1 = Except.error e2 := by
            rw [hs]
          have hsave2 := save_error st1 k d2 e2 hsave1
          have hio := save_error_io st1 k d2 e2 hsave1
          rw [hs] at hsave2
          simp only at hsave2
          exact ⟨hsave2, by rw [← h, hio]; rfl⟩
        | ok u => simp at h

/-- The post-lookup stage raises only raw, unwrapped errors and leaves
the state as the lookup left it. -/
lemma afterGet_error (caps : Caps) (st1 : CoreState) (k : String)
    (copt : Option Bytes) (data : Bytes) (e : PyErr)
    (h : (afterGet caps st1 k copt data).1 = .error e) :
    (afterGet caps st1 k copt data).2.1 = st1 ∧ e.isWrapped = false := by
  unfold afterGet at h ⊢
  cases hh : hitData copt with
  | none =>
    have h2 : (missPath caps st1 k data).1 = .error e := by simpa [hh] using h
    have h3 := missPath_error caps st1 k data e h2
    simpa [hh] using h3
  | some c => simp [hh] at h

/-- Any raise out of the body of remove_background is a raw library
error, never the tagged wrapper of the spec. -/
lemma rbBody_error (caps : Caps) (st : CoreState) (data : Bytes)
    (hash : Option String) (e : PyErr)
    (h : (rbBody caps st data hash).1 = .error e) : e.isWrapped = false := by
  unfold rbBody at h
  simp only [] at h
  rcases hg : get_cached_image (preState st hash) (resolveId hash (nextFresh st))
    with ⟨r, st1⟩
  rw [hg] at h
  cases r with
  | error e2 =>
    simp at h
    cases h
    have hio := get_error_io (preState st hash) (resolveId hash (nextFresh st)) e
      (by rw [hg])
    rw [hio]
    rfl
  | ok copt =>
    simp at h
    exact (afterGet_error caps st1 (resolveId hash (nextFresh st)) copt data e h).2

/-- A cache lookup that misses both the memo and the durable tier
returns None and memoizes that None. -/
lemma get_miss_absent (st : CoreState) (k : String)
    (hm : st.memo.lookup k = none) (hf : st.fs.read (cachePath k) = .absent) :
    get_cached_image st k = (.ok none, { st with memo := st.memo.store k none }) := by
  unfold get_cached_image rawGet
  rw [hm, hf]

/-- The state after remove_background is the state after its body, with
the permit returned. -/
lemma remove_background_state (caps : Caps) (st : CoreState) (data : Bytes)
    (hash : Option String) :
    (remove_background caps st data hash).2.1 =
      { (rbBody caps { st with gate := st.gate - 1 } data hash).2.1 with
          gate := (rbBody caps { st with gate := st.gate - 1 } data hash).2.1.gate + 1 } := by
  unfold remove_background
  rcases hb : rbBody caps { st with gate := st.gate - 1 } data hash with ⟨r, st1, evs⟩
  simp [hb]

/-- On a supplied non-falsy identifier that misses both tiers, the body
is the compute path run in the state that memoized the miss. -/
lemma rbBody_miss_absent (caps : Caps) (st : CoreState) (data : Bytes) (k : String)
    (hk : falsyId (some k) = false)
    (hmem : st.memo.lookup k = none) (hfs : st.fs.read (cachePath k) = .absent) :
    rbBody caps st data (some k) =
      missPath caps { st with memo := st.memo.store k none } k data := by
  have hpre : preState st (some k) = st := by simp [preState, hk]
  have hres : resolveId (some k) (nextFresh st) = k := by simp [resolveId, hk]
  unfold rbBody
  simp only [hpre, hres, get_miss_absent st k hmem hfs]
  simp [afterGet, hitData]

/-- After any list of interleaved puts and gets for a key whose miss is
already memoized, every get still answers None. -/
lemma runOps_all_none (k : String) (ops : List CacheOp) :
    ∀ (st : CoreState), st.memo.lookup k = some none →
      ((runOps k st ops).1).all (fun r => decide (r = Except.ok none)) = true := by
  induction ops with
  | nil => intro st h; rfl
  | cons op rest ih =>
    intro st h
    cases op with
    | get =>
      have hg := get_when_memoized st k none h
      have ht := lookup_touch st.memo k none h
      rcases hr : runOps k { st with memo := st.memo.touch k } rest with ⟨rs, st2⟩
      have hall := ih { st with memo := st.memo.touch k } (by simpa using ht)
      rw [hr] at hall
      simp only [runOps, hg, hr]
      simp only at hall
      simp [hall]
    | put d =>
      rcases hs : save_to_cache st k d with ⟨rs, st1⟩
      have hf := save_frame st k d
      rw [hs] at hf
      simp only at hf
      simp only [runOps, hs]
      exact ih st1 (by rw [hf.1]; exact h)

/- Claim theorems. Each claim of the specification is settled below by
one theorem, plus a counterexample or witness where applicable. -/

/-- Claim C1 counterexample: a call whose identifier is present in the
cache does return the cached bytes, but the trace shows the gate permit
is acquired first — the acquisition precedes the cache lookup, so a
cache hit does block on and does consume a gate permit, contrary to the
claim. -/
theorem C1_cex :
    (remove_background demoCaps stHit [5] (some "k")).1 = Except.ok [9] ∧
    (remove_background demoCaps stHit [5] (some "k")).2.2 =
      [Ev.acquire, Ev.cacheGet "k", Ev.hit, Ev.release] := by decide

/-- Claim C1 (amended): on a cache hit, process returns the cached
bytes without recomputation, but only after acquiring the gate permit:
the semaphore is acquired before the cache lookup and released on
return, so a hit temporarily consumes one permit. -/
theorem C1_amended (caps : Caps) (st : CoreState) (data : Bytes) (k : String)
    (c : Bytes) (hk : k ≠ "") (hmem : st.memo.lookup k = some (some c))
    (hc : c ≠ []) (hg : 0 < st.gate) :
    remove_background caps st data (some k) =
      (Except.ok c, { st with memo := st.memo.touch k },
        [Ev.acquire, Ev.cacheGet k, Ev.hit, Ev.release]) := by
  obtain ⟨m, f, kt, g, u⟩ := st
  have hfal : falsyId (some k) = false := by simp [falsyId, hk]
  have hb := rbBody_hit caps ⟨m, f, kt, g - 1, u⟩ data k c hfal hmem hc
  unfold remove_background
  simp only at hb ⊢
  rw [hb]
  simp only at hg
  simp [Nat.sub_add_cancel hg]

/-- Witness for C1_amended at a concrete hit state. -/
theorem C1_witness :
    remove_background demoCaps stHit [5] (some "k") =
      (Except.ok [9], { stHit with memo := stHit.memo.touch "k" },
        [Ev.acquire, Ev.cacheGet "k", Ev.hit, Ev.release]) :=
  C1_amended demoCaps stHit [5] "k" [9] (by decide) (by decide) (by decide)
    (by decide)

/-- Claim C2, evaluated at the failing input: two successive calls with
the same identifier and bytes from a fresh state with durable retention
enabled. Both calls return the same bytes and the durable entry exists
after the first call, yet the second call still invokes the matting
capability and never takes the hit path, because the lru_cache memo
captured the first call's miss (None) and masks the durable entry. -/
theorem C2_bug :
    c2run1.1 = Except.ok [0, 5] ∧
    c2run2.1 = Except.ok [0, 5] ∧
    c2run1.2.1.fs.read (cachePath "k") = FsEntry.file [0, 5] ∧
    Ev.matteCall ∈ c2run2.2.2 ∧ Ev.hit ∉ c2run2.2.2 := by decide

/-- Claim C3: in every reachable state of the gate system — any number
of tasks, any interleaving of acquisitions and releases — the number of
in-flight matting calls never exceeds the permit count N. -/
theorem C3_gate_bound (M N : Nat) (s : GateSt)
    (h : Relation.ReflTransGen GateStep (initGate M N) s) :
    inflight s ≤ N := by
  have hi := ginv_reachable h
  unfold GInv at hi
  omega

/-- Witness for C3_gate_bound: the state reached from three waiting
tasks and two permits after one acquisition. -/
theorem C3_witness :
    inflight { tasks := (List.replicate 3 Phase.waiting).set 0 Phase.matting,
               avail := 1 } ≤ 2 :=
  C3_gate_bound 3 2 _
    (Relation.ReflTransGen.single (GateStep.acquire (initGate 3 2) 0 rfl (by decide)))

/-- Claim C4 counterexample: with durable retention disabled, put is a
complete no-op — it does not insert into any in-memory tier — so an
immediately following get returns a miss, not the stored bytes. -/
theorem C4_cex :
    stNoKeep.keepTempFiles = false ∧
    (save_to_cache stNoKeep "a" [1]).2 = stNoKeep ∧
    (get_cached_image (save_to_cache stNoKeep "a" [1]).2 "a").1 = Except.ok none := by
  decide

/-- Claim C4 (amended): put followed immediately by get returns the
stored bytes — without any capability call, since the cache operations
never touch the matting capability — provided durable retention is
enabled, the write path does not fail, and no earlier get for the
identifier has already memoized a result. -/
theorem C4_amended (st : CoreState) (k : String) (X : Bytes)
    (hkeep : st.keepTempFiles = true)
    (hwf : st.fs.writeFails.contains (cachePath k) = false)
    (hmem : st.memo.lookup k = none) :
    (get_cached_image (save_to_cache st k X).2 k).1 = Except.ok (some X) := by
  have hw : cachePath k ∉ st.fs.writeFails := by simpa using hwf
  have h2 : (save_to_cache st k X).2 =
      { st with fs := st.fs.write (cachePath k) X } := by
    unfold save_to_cache
    simp [hkeep, hw]
  rw [h2]
  have hm2 : ({ st with fs := st.fs.write (cachePath k) X } : CoreState).memo.lookup k =
      none := hmem
  have hr2 : ({ st with fs := st.fs.write (cachePath k) X } : CoreState).fs.read
      (cachePath k) = FsEntry.file X := fs_read_write_self st.fs (cachePath k) X
  unfold get_cached_image rawGet
  rw [hm2, hr2]

/-- Witness for C4_amended at a fresh retention-enabled state. -/
theorem C4_witness :
    (get_cached_image (save_to_cache st0 "b" [7]).2 "b").1 = Except.ok (some [7]) :=
  C4_amended st0 "b" [7] (by decide) (by decide) (by decide)

/-- Claim C5: every call of process acquires the gate exactly once and
releases it exactly once, on every exit path — success, cache hit, or
any raise — and the available-permit count after the call equals the
count before it. -/
theorem C5_release (caps : Caps) (st : CoreState) (data : Bytes)
    (hash : Option String) (hg : 0 < st.gate) :
    (remove_background caps st data hash).2.1.gate = st.gate ∧
    (remove_background caps st data hash).2.2.countP isAcq = 1 ∧
    (remove_background caps st data hash).2.2.countP isRel = 1 := by
  unfold remove_background
  rcases hb : rbBody caps { st with gate := st.gate - 1 } data hash with ⟨r, st1, evs⟩
  have hf := rbBody_frame caps { st with gate := st.gate - 1 } data hash
  rw [hb] at hf
  simp only at hf
  refine ⟨?_, ?_, ?_⟩
  · simp only [hb]
    have h1 := hf.1
    simp only at h1 ⊢
    omega
  · simp [hb, List.countP_cons, List.countP_append, isAcq, hf.2.1]
  · simp [hb, List.countP_cons, List.countP_append, isRel, hf.2.2]

/-- Witness for C5_release on a failing call (decode failure), showing
the permit is restored even on the error path. -/
theorem C5_witness :
    (remove_background demoCaps st0 [] (some "k")).2.1.gate = st0.gate ∧
    (remove_background demoCaps st0 [] (some "k")).2.2.countP isAcq = 1 ∧
    (remove_background demoCaps st0 [] (some "k")).2.2.countP isRel = 1 :=
  C5_release demoCaps st0 [] (some "k") (by decide)

/-- Claim C6 counterexample: a durable-tier read failure is surfaced to
the caller of get as a raise, not downgraded to a miss; a durable-tier
write failure is surfaced by put, not downgraded to a no-op; and the
error even propagates out of process itself. -/
theorem C6_cex :
    (get_cached_image stIOFail "k").1 = Except.error PyErr.ioErr ∧
    (save_to_cache stIOFail "w" [1]).1 = Except.error PyErr.ioErr ∧
    (remove_background demoCaps stIOFail [5] (some "k")).1 =
      Except.error PyErr.ioErr := by decide

/-- Claim C6 (amended): durable-tier I/O failures are not handled by
the cache operations: an unreadable file makes get raise and a failing
write makes put raise, for every identifier and payload; only a
nonexistent file is treated as a miss. -/
theorem C6_amended (st : CoreState) (k w : String) (d : Bytes)
    (hr : st.fs.read (cachePath k) = FsEntry.unreadable)
    (hm : st.memo.lookup k = none)
    (hkeep : st.keepTempFiles = true)
    (hwf : st.fs.writeFails.contains (cachePath w) = true) :
    (get_cached_image st k).1 = Except.error PyErr.ioErr ∧
    (save_to_cache st w d).1 = Except.error PyErr.ioErr := by
  constructor
  · unfold get_cached_image rawGet
    rw [hm, hr]
  · have hw : cachePath w ∈ st.fs.writeFails := by simpa using hwf
    unfold save_to_cache
    simp [hkeep, hw]

/-- Witness for C6_amended at a state with one unreadable file and one
write-failing path. -/
theorem C6_witness :
    (get_cached_image stIOFail "k").1 = Except.error PyErr.ioErr ∧
    (save_to_cache stIOFail "w" [1]).1 = Except.error PyErr.ioErr :=
  C6_amended stIOFail "k" "w" [1] (by decide) (by decide) (by decide) (by decide)

/-- Claim C7 counterexample: a decode failure propagates out of process
as the raw decode error, which is not the tagged wrapper the claim
requires. -/
theorem C7_cex :
    (remove_background demoCaps st0 [] (some "k")).1 =
      Except.error PyErr.decodeErr ∧
    PyErr.isWrapped PyErr.decodeErr = false := by decide

/-- Claim C7 (amended): every failure of process propagates to the
caller as the raw underlying exception — decode, matting, encode or
cache-I/O — logged and re-raised unchanged; no tagged wrapper is ever
applied. -/
theorem C7_amended (caps : Caps) (st : CoreState) (data : Bytes)
    (hash : Option String) (e : PyErr)
    (h : (remove_background caps st data hash).1 = Except.error e) :
    e.isWrapped = false := by
  rw [remove_background_result] at h
  exact rbBody_error caps { st with gate := st.gate - 1 } data hash e h

/-- Witness for C7_amended at a concrete decode failure. -/
theorem C7_witness : PyErr.isWrapped PyErr.decodeErr = false :=
  C7_amended demoCaps st0 [] (some "k") PyErr.decodeErr (by decide)

/-- Claim C8 counterexample: after a decode failure the durable tier is
indeed untouched and the error propagates, but the in-memory tier does
hold an entry for the identifier afterward — the memoized miss — so it
is not true that no entry for the identifier exists in either tier. -/
theorem C8_cex :
    (remove_background demoCaps st0 [] (some "a")).1 =
      Except.error PyErr.decodeErr ∧
    (remove_background demoCaps st0 [] (some "a")).2.1.memo.lookup "a" =
      some none ∧
    (remove_background demoCaps st0 [] (some "a")).2.1.fs = st0.fs := by decide

/-- Claim C8 (amended): if process fails at any step after a cache miss
then the durable tier is left exactly as it was and no output bytes are
cached, and the error propagates; however the in-memory tier retains a
memoized miss entry (identifier mapped to None) created by the lookup
itself. -/
theorem C8_amended (caps : Caps) (st : CoreState) (data : Bytes) (k : String)
    (e : PyErr) (hk : k ≠ "") (hcap : 1 ≤ st.memo.cap)
    (hmem : st.memo.lookup k = none)
    (hfs : st.fs.read (cachePath k) = FsEntry.absent)
    (herr : (remove_background caps st data (some k)).1 = Except.error e) :
    (remove_background caps st data (some k)).2.1.fs = st.fs ∧
    (remove_background caps st data (some k)).2.1.memo.lookup k = some none := by
  have hfal : falsyId (some k) = false := by simp [falsyId, hk]
  have hb := rbBody_miss_absent caps { st with gate := st.gate - 1 } data k hfal
    hmem hfs
  have hres := remove_background_result caps st data (some k)
  have hstate := remove_background_state caps st data (some k)
  rw [hb] at hres hstate
  rw [hres] at herr
  have hme := missPath_error caps _ k data e herr
  constructor
  · rw [hstate, hme.1]
  · rw [hstate, hme.1]
    exact lookup_store st.memo k none hcap

/-- Witness for C8_amended at a concrete decode failure. -/
theorem C8_witness :
    (remove_background demoCaps st0 [] (some "b")).2.1.fs = st0.fs ∧
    (remove_background demoCaps st0 [] (some "b")).2.1.memo.lookup "b" =
      some none :=
  C8_amended demoCaps st0 [] "b" PyErr.decodeErr (by decide) (by decide)
    (by decide) (by decide) (by decide)

/-- Claim C9 counterexample: an empty caller-supplied identifier is not
used verbatim but replaced by the random value, and with no identifier
the resolved cache key depends on the random uuid stream — two calls
with identical input bytes use different keys — so no identifier is
ever derived from the content. -/
theorem C9_cex :
    resolveId (some "") "u1" = "u1" ∧
    Ev.cacheGet "u1" ∈ (remove_background demoCaps stU1 [5] none).2.2 ∧
    Ev.cacheGet "u2" ∈ (remove_background demoCaps stU2 [5] none).2.2 ∧
    ("u1" : String) ≠ "u2" := by decide

/-- Claim C9 (amended): identifier resolution is two-way: a non-empty
caller-supplied identifier is used verbatim; otherwise — supplied empty
or absent — a random identifier is synthesized; no content-derived
identifier exists. -/
theorem C9_amended (s fresh : String) (hs : s ≠ "") :
    resolveId (some s) fresh = s ∧ resolveId none fresh = fresh ∧
    resolveId (some "") fresh = fresh := by
  refine ⟨?_, rfl, rfl⟩
  simp [resolveId, falsyId, hs]

/-- Witness for C9_amended at concrete strings. -/
theorem C9_witness :
    resolveId (some "a") "u" = "a" ∧ resolveId none "u" = "u" ∧
    resolveId (some "") "u" = "u" :=
  C9_amended "a" "u" (by decide)

/-- Claim C10: once a get for an identifier has returned a miss (and
the lru capacity is at least one), every later get for that identifier
keeps returning a miss, whatever puts for that identifier happen in
between — the memoized None shadows the durable tier for the rest of
the process lifetime. -/
theorem C10_miss_memoized (st : CoreState) (k : String) (ops : List CacheOp)
    (hcap : 1 ≤ st.memo.cap)
    (hmiss : (get_cached_image st k).1 = Except.ok none) :
    ((runOps k (get_cached_image st k).2 ops).1).all
      (fun r => decide (r = Except.ok none)) = true := by
  have hinv : (get_cached_image st k).2.memo.lookup k = some none := by
    unfold get_cached_image at hmiss ⊢
    cases hm : st.memo.lookup k with
    | some v =>
      simp [hm] at hmiss
      subst hmiss
      show (st.memo.touch k).lookup k = some none
      exact lookup_touch st.memo k none hm
    | none =>
      cases hrg : rawGet st.fs k with
      | error e => simp [hm, hrg] at hmiss
      | ok v =>
        simp [hm, hrg] at hmiss
        subst hmiss
        show (st.memo.store k none).lookup k = some none
        exact lookup_store st.memo k none hcap
  exact runOps_all_none k ops _ hinv

/-- Witness for C10_miss_memoized: after a first miss for key a, a put
for a and then a get still answer a miss. -/
theorem C10_witness :
    ((runOps "a" (get_cached_image st0 "a").2
        [CacheOp.put [1, 2], CacheOp.get]).1).all
      (fun r => decide (r = Except.ok none)) = true :=
  C10_miss_memoized st0 "a" [CacheOp.put [1, 2], CacheOp.get] (by decide)
    (by decide)

end BgCore
